import Mathlib

/-!
Verification of the website-chat backend (`main.py`): a shallow embedding of
its session store, content reducer, prompt builder and endpoint handlers,
with theorems about the behaviour specified for them.

Machine strings are modelled as Lean `String`/`List Char` (Python slices by
code point, as does `List.take` on `String.data`); wall-clock reads
(`time.time()`) are passed in as explicit `Nat` parameters; the Gemini model
call is an oracle parameter mapping the built prompt to an outcome.
-/

set_option maxRecDepth 8192

namespace WebsiteChat

/-- Whitespace test modelling the Python `str.strip` and regex whitespace class on the
characters the two agree on (ASCII whitespace plus the file/group/record
separators, NEL, NBSP and the Unicode line/paragraph separators). -/
def isPySpace (c : Char) : Bool :=
  c == ' ' || c == '\t' || c == '\n' || c == '\r' || c == '\x0B' || c == '\x0C' ||
  c == '\x1C' || c == '\x1D' || c == '\x1E' || c == '\x85' || c == '\xA0' ||
  c == '\u2028' || c == '\u2029'

/-- Line-boundary test modelling the Python `str.splitlines` boundaries. -/
def isLineBreak (c : Char) : Bool :=
  c == '\n' || c == '\r' || c == '\x0B' || c == '\x0C' ||
  c == '\x1C' || c == '\x1D' || c == '\x1E' || c == '\x85' ||
  c == '\u2028' || c == '\u2029'

theorem isLineBreak_isPySpace {c : Char} (h : isLineBreak c = true) : isPySpace c = true := by
  simp only [isLineBreak, isPySpace, Bool.or_eq_true, beq_iff_eq] at *
  tauto

/-- Worker for `pySplitlines`: accumulates the current line (reversed) and
emits it at each boundary, treating `\r\n` as a single boundary. -/
def pySplitlinesGo : List Char → List Char → List (List Char)
  | [], acc => if acc.isEmpty then [] else [acc.reverse]
  | c :: rest, acc =>
    if c = '\r' then
      acc.reverse :: pySplitlinesGo (if rest.head? = some '\n' then rest.tail else rest) []
    else if isLineBreak c then acc.reverse :: pySplitlinesGo rest []
    else pySplitlinesGo rest (c :: acc)
termination_by s _ => s.length
decreasing_by
  all_goals (try split)
  all_goals simp [List.length_tail]
  all_goals omega

/-- Python `str.splitlines()`. -/
def pySplitlines (s : List Char) : List (List Char) :=
  pySplitlinesGo s []

/-- Python `str.strip()` (no argument): drop whitespace from both ends. -/
def pyStrip (s : List Char) : List Char :=
  ((s.dropWhile isPySpace).reverse.dropWhile isPySpace).reverse

/-- Python `line.split("  ")`: greedy left-to-right split on each
occurrence of two consecutive spaces. -/
def splitDoubleSpace : List Char → List (List Char)
  | [] => [[]]
  | [c] => [[c]]
  | c :: d :: rest =>
    if c = ' ' ∧ d = ' ' then [] :: splitDoubleSpace rest
    else
      match splitDoubleSpace (d :: rest) with
      | [] => [[c]]
      | h :: t => (c :: h) :: t

/-- Python `re.sub(r"\s+", " ", s)`: collapse each whitespace run to one space. -/
def collapseWs : List Char → List Char
  | [] => []
  | c :: rest =>
    if isPySpace c then
      match rest with
      | [] => [' ']
      | d :: _ => if isPySpace d then collapseWs rest else ' ' :: collapseWs rest
    else c :: collapseWs rest

/-- The text-cleaning pipeline of `clean_and_extract_text` (`main.py` lines
94-100): strip each line, split lines on double spaces, join the non-empty
stripped fragments with single spaces, then collapse whitespace runs and
strip the result. -/
def cleanText (t : List Char) : List Char :=
  let lines := (pySplitlines t).map pyStrip
  let chunks := (lines.map (fun line => (splitDoubleSpace line).map pyStrip)).flatten
  let joined := List.intercalate [' '] (chunks.filter (fun c => !c.isEmpty))
  pyStrip (collapseWs joined)

/-- String-level wrapper of `cleanText`. -/
def cleanTextS (s : String) : String :=
  String.mk (cleanText s.data)

/-! ### Whitespace normalization: shape of the pipeline outputs -/

/-- Normal form produced by the cleaning pipeline: the only whitespace
character is a single space, no two spaces are adjacent, and neither end is
a space. -/
def WsNormal (l : List Char) : Prop :=
  (∀ c ∈ l, isPySpace c = true → c = ' ') ∧
  l.Chain' (fun a b => ¬(a = ' ' ∧ b = ' ')) ∧
  l.head? ≠ some ' ' ∧ l.getLast? ≠ some ' '

theorem isPySpace_space : isPySpace ' ' = true := by decide

theorem ne_space_of_not_pySpace {c : Char} (h : ¬ isPySpace c = true) : c ≠ ' ' := by
  intro hc; subst hc; exact h isPySpace_space

theorem collapseWs_cons_not {c : Char} (h : ¬ isPySpace c = true) (l : List Char) :
    collapseWs (c :: l) = c :: collapseWs l := by
  simp [collapseWs, h]

theorem collapseWs_space_nil {c : Char} (h : isPySpace c = true) :
    collapseWs [c] = [' '] := by
  simp [collapseWs, h]

theorem collapseWs_space_space {c d : Char} (hc : isPySpace c = true)
    (hd : isPySpace d = true) (l : List Char) :
    collapseWs (c :: d :: l) = collapseWs (d :: l) := by
  simp [collapseWs, hc, hd]

theorem collapseWs_space_not {c d : Char} (hc : isPySpace c = true)
    (hd : ¬ isPySpace d = true) (l : List Char) :
    collapseWs (c :: d :: l) = ' ' :: d :: collapseWs l := by
  simp [collapseWs, hc, hd]

theorem mem_collapseWs {l : List Char} :
    ∀ c ∈ collapseWs l, isPySpace c = true → c = ' ' := by
  induction l with
  | nil => intro c hc; simp [collapseWs] at hc
  | cons a rest ih =>
    by_cases ha : isPySpace a = true
    · cases rest with
      | nil =>
        intro c hc _
        rw [collapseWs_space_nil ha] at hc
        simpa using hc
      | cons d r =>
        by_cases hd : isPySpace d = true
        · rw [collapseWs_space_space ha hd]
          exact ih
        · rw [collapseWs_space_not ha hd]
          intro c hc hcs
          rcases List.mem_cons.mp hc with rfl | hc2
          · rfl
          · rcases List.mem_cons.mp hc2 with rfl | hc3
            · exact absurd hcs hd
            · exact ih c (by rw [collapseWs_cons_not hd]; exact List.mem_cons_of_mem _ hc3) hcs
    · rw [collapseWs_cons_not ha]
      intro c hc hcs
      rcases List.mem_cons.mp hc with rfl | hc2
      · exact absurd hcs ha
      · exact ih c hc2 hcs

theorem chain'_collapseWs (l : List Char) :
    (collapseWs l).Chain' (fun a b => ¬(a = ' ' ∧ b = ' ')) := by
  induction l with
  | nil => simp [collapseWs]
  | cons a rest ih =>
    by_cases ha : isPySpace a = true
    · cases rest with
      | nil =>
        rw [collapseWs_space_nil ha]
        exact List.chain'_singleton _
      | cons d r =>
        by_cases hd : isPySpace d = true
        · rw [collapseWs_space_space ha hd]; exact ih
        · rw [collapseWs_space_not ha hd]
          rw [collapseWs_cons_not hd] at ih
          refine List.chain'_cons.mpr ⟨?_, ih⟩
          rintro ⟨-, hd'⟩
          exact ne_space_of_not_pySpace hd hd'
    · rw [collapseWs_cons_not ha]
      refine List.chain'_cons'.mpr ⟨?_, ih⟩
      intro y _
      rintro ⟨ha', -⟩
      exact ne_space_of_not_pySpace ha ha'

/-- Decomposition: `pyStrip l` sits inside `l` between the stripped ends. -/
theorem append_pyStrip (l : List Char) :
    l.takeWhile isPySpace ++ (pyStrip l
      ++ ((l.dropWhile isPySpace).reverse.takeWhile isPySpace).reverse) = l := by
  have h1 : pyStrip l ++ ((l.dropWhile isPySpace).reverse.takeWhile isPySpace).reverse
      = l.dropWhile isPySpace := by
    rw [pyStrip, ← List.reverse_append, List.takeWhile_append_dropWhile,
      List.reverse_reverse]
  rw [h1, List.takeWhile_append_dropWhile]

theorem mem_pyStrip {l : List Char} {c : Char} (h : c ∈ pyStrip l) : c ∈ l := by
  rw [← append_pyStrip l]
  simp only [List.mem_append]
  exact Or.inr (Or.inl h)

theorem chain'_pyStrip {R : Char → Char → Prop} {l : List Char}
    (h : l.Chain' R) : (pyStrip l).Chain' R := by
  rw [← append_pyStrip l] at h
  exact h.right_of_append.left_of_append

theorem pyStrip_head? {l : List Char} {a : Char} (h : (pyStrip l).head? = some a) :
    isPySpace a = false := by
  have hm : (l.dropWhile isPySpace).head? = some a := by
    have h1 : pyStrip l ++ ((l.dropWhile isPySpace).reverse.takeWhile isPySpace).reverse
        = l.dropWhile isPySpace := by
      rw [pyStrip, ← List.reverse_append, List.takeWhile_append_dropWhile,
        List.reverse_reverse]
    rw [← h1, List.head?_append, h]
    rfl
  have hnot := List.head?_dropWhile_not isPySpace l
  rw [hm] at hnot
  exact hnot

theorem pyStrip_getLast? {l : List Char} {a : Char} (h : (pyStrip l).getLast? = some a) :
    isPySpace a = false := by
  rw [pyStrip, List.getLast?_reverse] at h
  have hnot := List.head?_dropWhile_not isPySpace (l.dropWhile isPySpace).reverse
  rw [h] at hnot
  exact hnot

/-- Every output of the cleaning pipeline is in whitespace normal form. -/
theorem wsNormal_cleanText (t : List Char) : WsNormal (cleanText t) := by
  refine ⟨?_, ?_, ?_, ?_⟩
  · intro c hc hs
    exact mem_collapseWs c (mem_pyStrip hc) hs
  · exact chain'_pyStrip (chain'_collapseWs _)
  · intro h
    have := pyStrip_head? h
    rw [isPySpace_space] at this
    simp at this
  · intro h
    have := pyStrip_getLast? h
    rw [isPySpace_space] at this
    simp at this

/-! ### Whitespace normalization: the pipeline fixes normal forms -/

theorem pySplitlinesGo_no_break {l : List Char} (hl : ∀ c ∈ l, isLineBreak c = false) :
    ∀ acc : List Char,
      pySplitlinesGo l acc = if (acc.reverse ++ l).isEmpty then [] else [acc.reverse ++ l] := by
  induction l with
  | nil => intro acc; simp [pySplitlinesGo]
  | cons c rest ih =>
    intro acc
    have hc : isLineBreak c = false := hl c (List.mem_cons_self c rest)
    have hcr : ¬ c = '\r' := by
      intro h; subst h; simp [isLineBreak] at hc
    have step : pySplitlinesGo (c :: rest) acc = pySplitlinesGo rest (c :: acc) := by
      simp only [pySplitlinesGo]
      rw [if_neg hcr, hc]
      simp
    rw [step, ih (fun d hd => hl d (List.mem_cons_of_mem c hd)) (c :: acc)]
    have harr : (c :: acc).reverse ++ rest = acc.reverse ++ (c :: rest) := by simp
    rw [harr]

theorem pySplitlines_no_break {l : List Char} (hne : l ≠ [])
    (hl : ∀ c ∈ l, isLineBreak c = false) : pySplitlines l = [l] := by
  rw [pySplitlines, pySplitlinesGo_no_break hl []]
  simp [hne]

theorem pyStrip_eq_self {l : List Char}
    (hh : ∀ a, l.head? = some a → isPySpace a = false)
    (hg : ∀ a, l.getLast? = some a → isPySpace a = false) : pyStrip l = l := by
  have h1 : l.dropWhile isPySpace = l := by
    cases l with
    | nil => rfl
    | cons a t => rw [List.dropWhile_cons_of_neg (by simp [hh a rfl])]
  have h2 : ∀ m : List Char, m = l.reverse → m.dropWhile isPySpace = m := by
    intro m hm
    cases m with
    | nil => rfl
    | cons a t =>
      have ha : l.getLast? = some a := by
        rw [← List.head?_reverse, ← hm]; rfl
      rw [List.dropWhile_cons_of_neg (by simp [hg a ha])]
  rw [pyStrip, h1, h2 l.reverse rfl, List.reverse_reverse]

theorem splitDoubleSpace_eq {l : List Char}
    (h : l.Chain' (fun a b => ¬(a = ' ' ∧ b = ' '))) : splitDoubleSpace l = [l] := by
  induction l with
  | nil => rfl
  | cons c rest ih =>
    cases rest with
    | nil => rfl
    | cons d r =>
      have hcd : ¬(c = ' ' ∧ d = ' ') := (List.chain'_cons.mp h).1
      have ht : splitDoubleSpace (d :: r) = [d :: r] := ih (List.chain'_cons.mp h).2
      simp only [splitDoubleSpace]
      rw [if_neg hcd, ht]

theorem collapseWs_eq_self {l : List Char}
    (hw : ∀ c ∈ l, isPySpace c = true → c = ' ')
    (hc : l.Chain' (fun a b => ¬(a = ' ' ∧ b = ' '))) : collapseWs l = l := by
  induction l with
  | nil => rfl
  | cons a rest ih =>
    by_cases ha : isPySpace a = true
    · have ha' : a = ' ' := hw a (List.mem_cons_self a rest) ha
      cases rest with
      | nil => rw [collapseWs_space_nil ha, ha']
      | cons d r =>
        by_cases hd : isPySpace d = true
        · have hd' : d = ' ' := hw d (by simp) hd
          exact absurd ⟨ha', hd'⟩ (List.chain'_cons.mp hc).1
        · rw [collapseWs_space_not ha hd, ha']
          have ih' := ih (fun c hcm hcs => hw c (List.mem_cons_of_mem a hcm) hcs)
            (List.chain'_cons'.mp hc).2
          rw [collapseWs_cons_not hd] at ih'
          have htail : collapseWs r = r := by
            injection ih'
          rw [htail]
    · rw [collapseWs_cons_not ha]
      congr 1
      exact ih (fun c hcm hcs => hw c (List.mem_cons_of_mem a hcm) hcs)
        (List.chain'_cons'.mp hc).2

theorem intercalate_single (x : List Char) : List.intercalate [' '] [x] = x := by
  simp [List.intercalate]

/-- The cleaning pipeline does not move strings already in normal form. -/
theorem cleanText_of_wsNormal {l : List Char} (h : WsNormal l) : cleanText l = l := by
  obtain ⟨hw, hchain, hhead, hlast⟩ := h
  rcases eq_or_ne l [] with rfl | hne
  · simp [cleanText, pySplitlines, pySplitlinesGo, List.intercalate, pyStrip, collapseWs]
  · have hnb : ∀ c ∈ l, isLineBreak c = false := by
      intro c hcmem
      cases hbe : isLineBreak c
      · rfl
      · have hcs : c = ' ' := hw c hcmem (isLineBreak_isPySpace hbe)
        subst hcs
        exact absurd hbe (by decide)
    have hhead' : ∀ a, l.head? = some a → isPySpace a = false := by
      intro a ha
      cases hsa : isPySpace a
      · rfl
      · have hmem : a ∈ l := by
          cases l with
          | nil => simp at ha
          | cons x t =>
            simp only [List.head?_cons, Option.some.injEq] at ha
            simp [ha]
        have : a = ' ' := hw a hmem hsa
        subst this
        exact absurd ha hhead
    have hlast' : ∀ a, l.getLast? = some a → isPySpace a = false := by
      intro a ha
      cases hsa : isPySpace a
      · rfl
      · have hmem : a ∈ l := List.mem_of_getLast?_eq_some ha
        have : a = ' ' := hw a hmem hsa
        subst this
        exact absurd ha hlast
    have h1 : pySplitlines l = [l] := pySplitlines_no_break hne hnb
    have hstrip : pyStrip l = l := pyStrip_eq_self hhead' hlast'
    have hsplit : splitDoubleSpace l = [l] := splitDoubleSpace_eq hchain
    have hcoll : collapseWs l = l := collapseWs_eq_self hw hchain
    show pyStrip (collapseWs (List.intercalate [' ']
      ((((pySplitlines l).map pyStrip).map
        (fun line => (splitDoubleSpace line).map pyStrip)).flatten.filter
        (fun c => !c.isEmpty)))) = l
    rw [h1]
    simp only [List.map_cons, List.map_nil, hstrip, hsplit, List.flatten_cons,
      List.flatten_nil, List.append_nil, List.filter_cons, List.filter_nil]
    rw [if_pos (by simp [hne])]
    rw [intercalate_single, hcoll, hstrip]

theorem cleanText_idem (t : List Char) : cleanText (cleanText t) = cleanText t :=
  cleanText_of_wsNormal (wsNormal_cleanText t)

/-- Claim C7: the text-mode whitespace normalization of
`clean_and_extract_text` is idempotent — applying the pipeline to any of its
own outputs returns that output unchanged. -/
theorem clean_text_pipeline_idempotent (s : String) :
    cleanTextS (cleanTextS s) = cleanTextS s := by
  show String.mk (cleanText (String.mk (cleanText s.data)).data) = String.mk (cleanText s.data)
  exact congrArg String.mk (cleanText_idem s.data)

/-! ### HTML node model (the parsed BeautifulSoup tree) -/

/-- A parsed HTML node: an element with a tag, attributes and children, a
text node (`NavigableString`), or a comment node. A document is a list of
top-level nodes. -/
inductive HtmlNode where
  | element (tag : String) (attrs : List (String × String)) (children : List HtmlNode)
  | text (s : String)
  | comment (s : String)

/-- Does `l` begin with the pattern `p` (Python `str.startswith`)? -/
def leadsWith : List Char → List Char → Bool
  | [], _ => true
  | _ :: _, [] => false
  | p :: ps, c :: cs => p == c && leadsWith ps cs

/-- Does `l` contain the pattern `p` as a contiguous subsequence
(Python `re.search` of a literal)? -/
def containsSeq (p : List Char) : List Char → Bool
  | [] => leadsWith p []
  | c :: cs => leadsWith p (c :: cs) || containsSeq p cs

/-- Model of `soup.find` for a predicate over tag name and attributes: the first
element in document (pre-)order that satisfies it, returned as its
(tag, attrs, children) components. -/
def findElem (p : String → List (String × String) → Bool) :
    List HtmlNode → Option (String × List (String × String) × List HtmlNode)
  | [] => none
  | HtmlNode.element t a c :: rest =>
    if p t a then some (t, a, c)
    else
      match findElem p c with
      | some r => some r
      | none => findElem p rest
  | HtmlNode.text _ :: rest => findElem p rest
  | HtmlNode.comment _ :: rest => findElem p rest

/-- The elements of a document in document (pre-)order. -/
def preorderElems : List HtmlNode → List (String × List (String × String) × List HtmlNode)
  | [] => []
  | HtmlNode.element t a c :: rest => (t, a, c) :: (preorderElems c ++ preorderElems rest)
  | HtmlNode.text _ :: rest => preorderElems rest
  | HtmlNode.comment _ :: rest => preorderElems rest

/-- The `decompose()` loop: destructively drop every element whose tag is in
`bad`, recursively. -/
def removeTags (bad : List String) : List HtmlNode → List HtmlNode
  | [] => []
  | HtmlNode.element t a c :: rest =>
    if bad.contains t then removeTags bad rest
    else HtmlNode.element t a (removeTags bad c) :: removeTags bad rest
  | HtmlNode.text s :: rest => HtmlNode.text s :: removeTags bad rest
  | HtmlNode.comment s :: rest => HtmlNode.comment s :: removeTags bad rest

/-- The comment-removal loop extracts each string node whose stripped
content starts with the characters `<!--`. -/
def markedAsComment (s : String) : Bool :=
  leadsWith "<!--".data (pyStrip s.data)

def removeMarkedStrings : List HtmlNode → List HtmlNode
  | [] => []
  | HtmlNode.element t a c :: rest =>
    HtmlNode.element t a (removeMarkedStrings c) :: removeMarkedStrings rest
  | HtmlNode.text s :: rest =>
    if markedAsComment s then removeMarkedStrings rest
    else HtmlNode.text s :: removeMarkedStrings rest
  | HtmlNode.comment s :: rest =>
    if markedAsComment s then removeMarkedStrings rest
    else HtmlNode.comment s :: removeMarkedStrings rest

/-- Model of `get_text`: the concatenation of all descendant text-node contents in
document order (comments are not string containers for `get_text`). -/
def getText : List HtmlNode → String
  | [] => ""
  | HtmlNode.element _ _ c :: rest => getText c ++ getText rest
  | HtmlNode.text s :: rest => s ++ getText rest
  | HtmlNode.comment _ :: rest => getText rest

/-- Title extraction (`main.py` lines 74-76): find the first title element, then
strip its extracted text, or use the sentinel when no title element exists. -/
def extract_title (doc : List HtmlNode) : String :=
  match findElem (fun t _ => t == "title") doc with
  | some (_, _, ch) => String.mk (pyStrip (getText ch).data)
  | none => "Untitled Page"

/-- The regex `content|main|body` applied by `re.search` to a class value
(case-sensitive, as in the source: no `re.IGNORECASE` flag). -/
def classSearch (v : String) : Bool :=
  containsSeq "content".data v.data || containsSeq "main".data v.data ||
  containsSeq "body".data v.data

/-- Predicate of the div lookup `soup.find` with the class regex: a `div`
element carrying a class attribute the regex matches. -/
def divClassPred (t : String) (a : List (String × String)) : Bool :=
  t == "div" &&
    (match List.lookup "class" a with
     | some v => classSearch v
     | none => false)

/-- Non-content structural elements removed before text extraction. -/
def badTags : List String :=
  ["script", "style", "nav", "header", "footer", "aside", "noscript"]

/-- Content-root selection (`main.py` line 87):
find main, else find article, else find a div by the class regex. -/
def select_main_content (doc : List HtmlNode) :
    Option (String × List (String × String) × List HtmlNode) :=
  match findElem (fun t _ => t == "main") doc with
  | some r => some r
  | none =>
    match findElem (fun t _ => t == "article") doc with
    | some r => some r
    | none => findElem divClassPred doc

/-- The extracted-text mode of the Content Reducer: title, then cleanup,
then content-root selection, then text extraction and normalization.
Returns `(clean_text, title)` as the source does. -/
def clean_and_extract_text (doc : List HtmlNode) : String × String :=
  let title := extract_title doc
  let cleaned := removeMarkedStrings (removeTags badTags doc)
  let text :=
    match select_main_content cleaned with
    | some (_, _, ch) => getText ch
    | none => getText cleaned
  (cleanTextS text, title)

/-- The cleaned document on which content-root selection runs. -/
def cleanedDoc (doc : List HtmlNode) : List HtmlNode :=
  removeMarkedStrings (removeTags badTags doc)

/-- Modelled from the claim wording of C5 (for comparison with
`select_main_content`): the class fallback accepts any element, matching
"content", "main" or "body" as a case-insensitive substring. -/
def anyClassPredCI (_ : String) (a : List (String × String)) : Bool :=
  match List.lookup "class" a with
  | some v => classSearch (String.mk (v.data.map Char.toLower))
  | none => false

/-- Content-root selection as the claim C5 words it. -/
def select_main_content_claim (doc : List HtmlNode) :
    Option (String × List (String × String) × List HtmlNode) :=
  match findElem (fun t _ => t == "main") doc with
  | some r => some r
  | none =>
    match findElem (fun t _ => t == "article") doc with
    | some r => some r
    | none => findElem anyClassPredCI doc

/-! ### Claims C5 and C10: content-root selection and the title sentinel -/

theorem findElem_eq_findq (p : String → List (String × String) → Bool) (l : List HtmlNode) :
    findElem p l = (preorderElems l).find? (fun r => p r.1 r.2.1) := by
  induction l using findElem.induct p with
  | case1 => simp [findElem, preorderElems]
  | case2 t a c rest hp => simp [findElem, preorderElems, hp]
  | case3 t a c rest hp r hr ihc =>
    have hp' : p t a = false := by revert hp; cases p t a <;> simp
    simp [findElem, preorderElems, hp', hr, List.find?_append, ← ihc]
  | case4 t a c rest hp hnone ihc ihr =>
    have hp' : p t a = false := by revert hp; cases p t a <;> simp
    simp [findElem, preorderElems, hp', hnone, List.find?_append, ← ihc, ihr]
  | case5 s rest ih => simpa [findElem, preorderElems] using ih
  | case6 s rest ih => simpa [findElem, preorderElems] using ih

theorem select_main_content_or (l : List HtmlNode) :
    select_main_content l =
      ((preorderElems l).find? (fun r => r.1 == "main")).or
        (((preorderElems l).find? (fun r => r.1 == "article")).or
          ((preorderElems l).find? (fun r => divClassPred r.1 r.2.1))) := by
  simp only [select_main_content, findElem_eq_findq]
  cases h1 : (preorderElems l).find? (fun r => r.1 == "main") with
  | some r => simp [Option.or]
  | none =>
    cases h2 : (preorderElems l).find? (fun r => r.1 == "article") with
    | some r => simp [Option.or]
    | none => simp [Option.or]

/-- Document refuting C5 as stated: a `span` with class "content" and no
`main`, `article` or `div` anywhere. -/
def c5Doc : List HtmlNode :=
  [HtmlNode.element "p" [] [HtmlNode.text "intro"],
   HtmlNode.element "span" [("class", "content")] [HtmlNode.text "x"]]

/-- Claim C5 counterexample: on `c5Doc` the selection of the code
(a `div` lookup only, case-sensitive) finds
no content root and falls back to the whole document, while the
claimed first element whose class attribute contains a case-insensitive match selects
the `span`. -/
theorem content_root_counterexample :
    select_main_content (cleanedDoc c5Doc) = none ∧
    select_main_content_claim (cleanedDoc c5Doc)
      = some ("span", [("class", "content")], [HtmlNode.text "x"]) := by
  have hclean : cleanedDoc c5Doc = c5Doc := by
    simp [cleanedDoc, c5Doc, removeTags, badTags, removeMarkedStrings, markedAsComment,
      leadsWith, pyStrip, isPySpace]
  have hmain : findElem (fun t _ => t == "main") c5Doc = none := by
    simp [findElem, c5Doc]
  have hart : findElem (fun t _ => t == "article") c5Doc = none := by
    simp [findElem, c5Doc]
  have hdivp : divClassPred "p" [] = false := by decide
  have hdivs : divClassPred "span" [("class", "content")] = false := by decide
  have hdiv : findElem divClassPred c5Doc = none := by
    simp [findElem, c5Doc, hdivp, hdivs]
  have hcip : anyClassPredCI "p" [] = false := by decide
  have hcis : anyClassPredCI "span" [("class", "content")] = true := by decide
  have hci : findElem anyClassPredCI c5Doc
      = some ("span", [("class", "content")], [HtmlNode.text "x"]) := by
    simp [findElem, c5Doc, hcip, hcis]
  constructor
  · rw [hclean, select_main_content, hmain, hart, hdiv]
  · rw [hclean, select_main_content_claim, hmain, hart, hci]

/-- Claim C5 (amended): the extracted-text mode selects its content root
from the cleaned tree by trying, in document order: the first `main`
element, else the first `article` element, else the first `div` element
whose class attribute matches the case-sensitive regex `content|main|body`,
else (result `none`) the whole parsed document; the extracted text is the
text of the selected root, or of the whole document on fallback. -/
theorem content_root_selection (doc : List HtmlNode) :
    select_main_content (cleanedDoc doc) =
      ((preorderElems (cleanedDoc doc)).find? (fun r => r.1 == "main")).or
        (((preorderElems (cleanedDoc doc)).find? (fun r => r.1 == "article")).or
          ((preorderElems (cleanedDoc doc)).find? (fun r => divClassPred r.1 r.2.1))) ∧
    (clean_and_extract_text doc).1 =
      cleanTextS (match select_main_content (cleanedDoc doc) with
        | some (_, _, ch) => getText ch
        | none => getText (cleanedDoc doc)) :=
  ⟨select_main_content_or (cleanedDoc doc), rfl⟩

theorem pyStrip_all_space {l : List Char} (h : l.all isPySpace = true) : pyStrip l = [] := by
  have h1 : l.dropWhile isPySpace = [] := by
    rw [List.dropWhile_eq_nil_iff]
    intro x hx
    exact List.all_eq_true.mp h x hx
  rw [pyStrip, h1]
  rfl

/-- Claim C10: the "Untitled Page" sentinel is produced exactly by the
absence of a `title` element; a present but whitespace-only (or empty)
`title` yields the empty string instead. -/
theorem untitled_sentinel (doc : List HtmlNode) :
    (findElem (fun t _ => t == "title") doc = none →
      extract_title doc = "Untitled Page") ∧
    (∀ t a ch, findElem (fun t _ => t == "title") doc = some (t, a, ch) →
      (getText ch).data.all isPySpace = true → extract_title doc = "") := by
  constructor
  · intro h
    simp [extract_title, h]
  · intro t a ch h hws
    simp only [extract_title, h]
    rw [pyStrip_all_space hws]

/-- Witness for C10 at concrete documents: a whitespace-only title gives
`""`, a document without a title gives the sentinel. -/
theorem untitled_sentinel_witness :
    extract_title [HtmlNode.element "title" [] [HtmlNode.text "  "]] = "" ∧
    extract_title [HtmlNode.element "p" [] []] = "Untitled Page" := by
  constructor
  · exact (untitled_sentinel _).2 "title" [] [HtmlNode.text "  "]
      (by simp [findElem]) (by simp [getText]; decide)
  · exact (untitled_sentinel _).1 (by simp [findElem])

/-! ### Session data and the chat prompt builder -/

/-- One stored chat exchange. -/
structure Exchange where
  user_message : String
  ai_response : String
  timestamp : Nat
deriving DecidableEq

/-- Rendering of one exchange inside the history section of the prompt: a user
line followed by an AI-response line. -/
def renderExchange (e : Exchange) : String :=
  "User: " ++ e.user_message ++ "\nAI: " ++ e.ai_response ++ "\n\n"

/-- Python `chat_history[-5:]`. -/
def lastFive (h : List Exchange) : List Exchange :=
  h.drop (h.length - 5)

/-- The history-context accumulation of `_sync_ai_call`
(`main.py` lines 124-129). -/
def history_context (chat_history : List Exchange) : String :=
  if chat_history.isEmpty then ""
  else (lastFive chat_history).foldl (fun acc e => acc ++ renderExchange e) ""

/-- The fixed character budget for website content in a chat prompt. -/
def content_limit : Nat := 15000

/-- The content truncation of `_sync_ai_call` (`main.py` lines 131-136). -/
def website_content_truncated (website_content : String) : String :=
  if website_content.length > content_limit then
    String.mk (website_content.data.take content_limit) ++ "... [content truncated]"
  else website_content

def promptPart1 : String :=
  "\n        You are a helpful AI assistant that can answer questions about website content. \n        \n        Website Content:\n        "

def promptPart2 : String :=
  "\n        \n        Previous Conversation:\n        "

def promptPart3 : String :=
  "\n        \n        User\x27s Current Question: "

def promptPart4 : String :=
  "\n        \n        Instructions:\n        - Answer based on the website content provided\n        - If the question is about summarization, provide a clear and concise summary\n        - If asked specific questions, find relevant information from the content\n        - If the information isn\x27t in the content, politely say so\n        - Keep responses conversational and helpful\n        - Reference specific parts of the content when relevant\n        \n        Response:\n        "

/-- The full prompt f-string of `_sync_ai_call`. -/
def build_prompt (message website_content : String) (chat_history : List Exchange) : String :=
  promptPart1 ++ website_content_truncated website_content ++ promptPart2 ++
  history_context chat_history ++ promptPart3 ++ message ++ promptPart4

/-- Concatenation of a list of strings. -/
def joinStrings (l : List String) : String :=
  l.foldr (fun a b => a ++ b) ""

theorem foldl_renderExchange (l : List Exchange) (acc : String) :
    l.foldl (fun a e => a ++ renderExchange e) acc
      = acc ++ joinStrings (l.map renderExchange) := by
  induction l generalizing acc with
  | nil => simp [joinStrings]
  | cons e t ih =>
    simp only [List.foldl_cons, List.map_cons, joinStrings, List.foldr_cons]
    rw [ih (acc ++ renderExchange e)]
    simp [joinStrings, String.append_assoc]

/-- Claim C3: the conversation-history section of the prompt renders exactly the
last `min n 5` exchanges (`chat_history[-5:]`), oldest-to-newest, each as a
user line followed by an AI line. -/
theorem chat_history_window (h : List Exchange) :
    history_context h = joinStrings ((h.drop (h.length - 5)).map renderExchange) ∧
    (h.drop (h.length - 5)).length = min h.length 5 ∧
    h.take (h.length - 5) ++ h.drop (h.length - 5) = h := by
  refine ⟨?_, ?_, List.take_append_drop _ h⟩
  · rw [history_context]
    rcases eq_or_ne h [] with rfl | hne
    · simp [joinStrings]
    · rw [if_neg (by simpa using hne), lastFive, foldl_renderExchange]
      simp
  · rw [List.length_drop]
    omega

/-- Claim C4: the prompt builder truncates website content to the
15000-character budget, appending the truncation marker exactly when the
budget is exceeded, and embeds the result in the prompt. -/
theorem content_budget (c : String) :
    (c.length > content_limit →
      website_content_truncated c
          = String.mk (c.data.take content_limit) ++ "... [content truncated]" ∧
        (String.mk (c.data.take content_limit)).length = content_limit) ∧
    (c.length ≤ content_limit → website_content_truncated c = c) ∧
    (∀ m hist, build_prompt m c hist
      = promptPart1 ++ website_content_truncated c ++ promptPart2 ++
        history_context hist ++ promptPart3 ++ m ++ promptPart4) := by
  refine ⟨?_, ?_, fun m hist => rfl⟩
  · intro hgt
    refine ⟨by rw [website_content_truncated, if_pos hgt], ?_⟩
    show (c.data.take content_limit).length = content_limit
    rw [List.length_take]
    have : c.length = c.data.length := rfl
    omega
  · intro hle
    rw [website_content_truncated, if_neg (by omega)]

/-- Witness for C4: a 15001-character content is cut at 15000 characters
and marked; a short content passes through unchanged. -/
theorem content_budget_witness :
    (website_content_truncated (String.mk (List.replicate 15001 'a'))
        = String.mk ((String.mk (List.replicate 15001 'a')).data.take content_limit)
          ++ "... [content truncated]" ∧
      (String.mk ((String.mk (List.replicate 15001 'a')).data.take content_limit)).length
        = content_limit) ∧
    website_content_truncated "short" = "short" := by
  have hlen : (String.mk (List.replicate 15001 'a')).length = 15001 := by
    show (List.replicate 15001 'a').length = 15001
    rw [List.length_replicate]
  constructor
  · exact (content_budget (String.mk (List.replicate 15001 'a'))).1
      (by rw [hlen]; norm_num [content_limit])
  · exact (content_budget "short").2.1 (by decide)

/-! ### MD5 and session-id generation (`hashlib.md5(...).hexdigest()[:12]`) -/

/-- 32-bit modular addition. -/
def addw (a b : Nat) : Nat := (a + b) % 4294967296

/-- 32-bit left rotation. -/
def rotl (x c : Nat) : Nat :=
  ((x <<< c) % 4294967296) ||| (x >>> (32 - c))

/-- Bitwise complement within 32 bits. -/
def notw (x : Nat) : Nat := x ^^^ 4294967295

/-- The MD5 sine-derived round constants. -/
def md5K : List Nat :=
  [3614090360, 3905402710, 606105819, 3250441966, 4118548399, 1200080426,
   2821735955, 4249261313, 1770035416, 2336552879, 4294925233, 2304563134,
   1804603682, 4254626195, 2792965006, 1236535329, 4129170786, 3225465664,
   643717713, 3921069994, 3593408605, 38016083, 3634488961, 3889429448,
   568446438, 3275163606, 4107603335, 1163531501, 2850285829, 4243563512,
   1735328473, 2368359562, 4294588738, 2272392833, 1839030562, 4259657740,
   2763975236, 1272893353, 4139469664, 3200236656, 681279174, 3936430074,
   3572445317, 76029189, 3654602809, 3873151461, 530742520, 3299628645,
   4096336452, 1126891415, 2878612391, 4237533241, 1700485571, 2399980690,
   4293915773, 2240044497, 1873313359, 4264355552, 2734768916, 1309151649,
   4149444226, 3174756917, 718787259, 3951481745]

/-- The MD5 per-round shift amounts. -/
def md5S : List Nat :=
  [7, 12, 17, 22, 7, 12, 17, 22, 7, 12, 17, 22, 7, 12, 17, 22,
   5, 9, 14, 20, 5, 9, 14, 20, 5, 9, 14, 20, 5, 9, 14, 20,
   4, 11, 16, 23, 4, 11, 16, 23, 4, 11, 16, 23, 4, 11, 16, 23,
   6, 10, 15, 21, 6, 10, 15, 21, 6, 10, 15, 21, 6, 10, 15, 21]

/-- Little-endian 32-bit word starting at byte offset `j` of a chunk. -/
def leWord (chunk : List Nat) (j : Nat) : Nat :=
  chunk.getD j 0 + 256 * chunk.getD (j + 1) 0 + 65536 * chunk.getD (j + 2) 0 +
  16777216 * chunk.getD (j + 3) 0

/-- One MD5 round on the running state `(a, b, c, d)`. -/
def md5Round (chunk : List Nat) (st : Nat × Nat × Nat × Nat) (i : Nat) :
    Nat × Nat × Nat × Nat :=
  let (a, b, c, d) := st
  let f :=
    if i < 16 then (b &&& c) ||| (notw b &&& d)
    else if i < 32 then (d &&& b) ||| (notw d &&& c)
    else if i < 48 then b ^^^ c ^^^ d
    else c ^^^ (b ||| notw d)
  let g :=
    if i < 16 then i
    else if i < 32 then (5 * i + 1) % 16
    else if i < 48 then (3 * i + 5) % 16
    else (7 * i) % 16
  let fv := addw (addw (addw f a) (md5K.getD i 0)) (leWord chunk (4 * g))
  (d, addw b (rotl fv (md5S.getD i 0)), b, c)

/-- Process one 64-byte chunk of the padded message. -/
def md5Chunk (st : Nat × Nat × Nat × Nat) (chunk : List Nat) : Nat × Nat × Nat × Nat :=
  let (a0, b0, c0, d0) := st
  let (a, b, c, d) := (List.range 64).foldl (md5Round chunk) st
  (addw a0 a, addw b0 b, addw c0 c, addw d0 d)

/-- Split a byte list into 64-byte chunks. -/
def toChunks : List Nat → List (List Nat)
  | [] => []
  | b :: rest => ((b :: rest).take 64) :: toChunks (rest.drop 63)
termination_by l => l.length
decreasing_by simp [List.length_drop]; omega

/-- MD5 padding: a `0x80` byte, zeros up to 56 mod 64, then the original
length in bits as eight little-endian bytes. -/
def md5Pad (msg : List Nat) : List Nat :=
  let bitLen := 8 * msg.length
  let z := (56 + 64 - ((msg.length + 1) % 64)) % 64
  msg ++ [128] ++ List.replicate z 0 ++
    (List.range 8).map (fun i => bitLen / 256 ^ i % 256)

/-- Little-endian bytes of a 32-bit word. -/
def wordBytes (w : Nat) : List Nat :=
  [w % 256, w / 256 % 256, w / 65536 % 256, w / 16777216 % 256]

/-- The 16-byte MD5 digest of a byte list. -/
def md5Digest (msg : List Nat) : List Nat :=
  match (toChunks (md5Pad msg)).foldl md5Chunk
      (1732584193, 4023233417, 2562383102, 271733878) with
  | (a, b, c, d) => wordBytes a ++ wordBytes b ++ wordBytes c ++ wordBytes d

def hexDigitChar (n : Nat) : Char :=
  if n < 10 then Char.ofNat (48 + n) else Char.ofNat (87 + n)

def byteHex (b : Nat) : List Char := [hexDigitChar (b / 16), hexDigitChar (b % 16)]

/-- Model of the hashlib md5 hexdigest as a character list. -/
def md5HexChars (msg : List Nat) : List Char :=
  ((md5Digest msg).map byteHex).flatten

/-- UTF-8 encoding of one character (as Python `str.encode()` does). -/
def utf8Char (c : Char) : List Nat :=
  let n := c.toNat
  if n < 128 then [n]
  else if n < 2048 then [192 + n / 64, 128 + n % 64]
  else if n < 65536 then [224 + n / 4096, 128 + n / 64 % 64, 128 + n % 64]
  else [240 + n / 262144, 128 + n / 4096 % 64, 128 + n / 64 % 64, 128 + n % 64]

def utf8Encode (s : String) : List Nat :=
  (s.data.map utf8Char).flatten

/-- Model of `generate_session_id` (`main.py` lines 65-68): the first 12 hex digits
of the MD5 of `f"{url}_{int(time.time())}"`; the integer wall-clock second
is the explicit parameter `now`. -/
def generate_session_id (url : String) (now : Nat) : String :=
  String.mk ((md5HexChars (utf8Encode (url ++ "_" ++ toString now))).take 12)

theorem md5Digest_length (msg : List Nat) : (md5Digest msg).length = 16 := by
  unfold md5Digest
  rcases (toChunks (md5Pad msg)).foldl md5Chunk
    (1732584193, 4023233417, 2562383102, 271733878) with ⟨a, b, c, d⟩
  simp [wordBytes]

theorem flatten_byteHex_length (l : List Nat) :
    ((l.map byteHex).flatten).length = 2 * l.length := by
  induction l with
  | nil => simp
  | cons b t ih => simp [byteHex, ih]; omega

theorem md5HexChars_length (msg : List Nat) : (md5HexChars msg).length = 32 := by
  rw [md5HexChars, flatten_byteHex_length, md5Digest_length]

theorem generate_session_id_length (url : String) (now : Nat) :
    (generate_session_id url now).length = 12 := by
  show ((md5HexChars (utf8Encode (url ++ "_" ++ toString now))).take 12).length = 12
  rw [List.length_take, md5HexChars_length]
  omega

/-! ### Server state and the endpoint handlers -/

/-- One cached entry of `website_cache`. -/
structure WebsiteData where
  url : String
  title : String
  content : String
  timestamp : Nat
deriving DecidableEq

/-- The two process-wide in-memory stores. -/
structure ServerState where
  website_cache : String → Option WebsiteData
  chat_sessions : String → Option (List Exchange)

/-- Empty stores at process start. -/
def initialState : ServerState :=
  { website_cache := fun _ => none, chat_sessions := fun _ => none }

structure HttpError where
  status_code : Nat
  detail : String
deriving DecidableEq

structure WebsiteResponse where
  session_id : String
  url : String
  title : String
  content_preview : String
  word_count : Nat
  status : String
deriving DecidableEq

structure ChatResponse where
  session_id : String
  user_message : String
  ai_response : String
  timestamp : Nat
deriving DecidableEq

/-- Python `content.split()`: split on whitespace runs, dropping empties. -/
def pySplitWsGo : List Char → List Char → List (List Char)
  | [], acc => if acc.isEmpty then [] else [acc.reverse]
  | c :: rest, acc =>
    if isPySpace c then
      (if acc.isEmpty then pySplitWsGo rest [] else acc.reverse :: pySplitWsGo rest [])
    else pySplitWsGo rest (c :: acc)

/-- Word count, `len` of `content.split` with no argument. -/
def word_count (content : String) : Nat :=
  (pySplitWsGo content.data []).length

/-- Preview slice, `content[:500] + "..." if len(content) > 500 else content`
(`main.py` line 215; the `+ "..."` binds inside the conditional). -/
def content_preview (content : String) : String :=
  if content.length > 500 then String.mk (content.data.take 500) ++ "..."
  else content

/-- The `/extract-website` handler (`main.py` lines 183-219), with the
fetched `content`/`title` passed in and `now` standing for
`int(time.time())`. -/
def extract_website (st : ServerState) (url title content : String) (now : Nat) :
    WebsiteResponse × ServerState :=
  let session_id := generate_session_id url now
  let st1 : ServerState :=
    { website_cache := fun k =>
        if k = session_id then some ⟨url, title, content, now⟩ else st.website_cache k,
      chat_sessions := fun k =>
        if k = session_id then some [] else st.chat_sessions k }
  (⟨session_id, url, title, content_preview content, word_count content, "success"⟩, st1)

/-- Outcome of one underlying Gemini `generate_content` call. -/
inductive ModelOutcome where
  | success (text : String)
  | failure (msg : String)
  | timeout

/-- Model of `get_ai_response` (`main.py` lines 120-177): build the prompt, invoke
the model through the oracle `model`, and map a timeout to HTTP 408 and any
other model failure to HTTP 500 (wrapped as `AI error: AI API error: ...`). -/
def get_ai_response (message website_content : String) (chat_history : List Exchange)
    (model : String → ModelOutcome) : Except HttpError String :=
  match model (build_prompt message website_content chat_history) with
  | ModelOutcome.success t => Except.ok t
  | ModelOutcome.timeout =>
    Except.error ⟨408, "AI processing timed out. Please try again."⟩
  | ModelOutcome.failure m =>
    Except.error ⟨500, "AI error: AI API error: " ++ m⟩

/-- The `/chat` handler (`main.py` lines 227-268). -/
def chat_with_content (st : ServerState) (session_id message : String)
    (model : String → ModelOutcome) (now : Nat) :
    Except HttpError ChatResponse × ServerState :=
  match st.website_cache session_id with
  | none =>
    (Except.error ⟨404, "Session not found. Please extract website content first."⟩, st)
  | some website_data =>
    let st0 : ServerState :=
      { st with chat_sessions := fun k =>
          if k = session_id then some ((st.chat_sessions session_id).getD [])
          else st.chat_sessions k }
    let chat_history := (st.chat_sessions session_id).getD []
    match get_ai_response message website_data.content chat_history model with
    | Except.error e => (Except.error e, st0)
    | Except.ok ai_response =>
      let chat_exchange : Exchange := ⟨message, ai_response, now⟩
      let st1 : ServerState :=
        { st0 with chat_sessions := fun k =>
            if k = session_id then some (chat_history ++ [chat_exchange])
            else st0.chat_sessions k }
      (Except.ok ⟨session_id, message, ai_response, now⟩, st1)

/-- The `/chat-history/{session_id}` handler (`main.py` lines 270-285). -/
def get_chat_history (st : ServerState) (session_id : String) :
    Except HttpError (String × List Exchange × String × String × Nat) :=
  match st.website_cache session_id with
  | none => Except.error ⟨404, "Session not found."⟩
  | some d =>
    Except.ok (session_id, (st.chat_sessions session_id).getD [],
      d.url, d.title, word_count d.content)

/-- The `/session/{session_id}` DELETE handler (`main.py` lines 287-297). -/
def clear_session (st : ServerState) (session_id : String) : String × ServerState :=
  ("Session cleared successfully",
   { website_cache := fun k => if k = session_id then none else st.website_cache k,
     chat_sessions := fun k => if k = session_id then none else st.chat_sessions k })

/-- The observable transcript of a session (`chat_sessions.get(sid, [])`). -/
def transcript (st : ServerState) (session_id : String) : List Exchange :=
  (st.chat_sessions session_id).getD []

/-! ### Helper lemmas about the chat handler -/

theorem get_ai_response_error_status (message wc : String) (h : List Exchange)
    (model : String → ModelOutcome) (e : HttpError)
    (he : get_ai_response message wc h model = Except.error e) :
    e.status_code = 408 ∨ e.status_code = 500 := by
  unfold get_ai_response at he
  cases hm : model (build_prompt message wc h) with
  | success t => rw [hm] at he; simp at he
  | failure m =>
    rw [hm] at he
    simp only [Except.error.injEq] at he
    rw [← he]
    right; rfl
  | timeout =>
    rw [hm] at he
    simp only [Except.error.injEq] at he
    rw [← he]
    left; rfl

/-- The chat handler never touches the website cache. -/
theorem chat_cache_eq (st : ServerState) (sid msg : String)
    (model : String → ModelOutcome) (now : Nat) :
    (chat_with_content st sid msg model now).2.website_cache = st.website_cache := by
  cases hcache : st.website_cache sid with
  | none => simp only [chat_with_content, hcache]
  | some d =>
    cases hres : get_ai_response msg d.content ((st.chat_sessions sid).getD []) model with
    | error e => simp only [chat_with_content, hcache, hres]
    | ok r => simp only [chat_with_content, hcache, hres]

/-- The chat handler leaves the transcript entries of other sessions untouched. -/
theorem chat_other_sessions_eq (st : ServerState) (sid msg : String)
    (model : String → ModelOutcome) (now : Nat) (s : String) (hs : s ≠ sid) :
    (chat_with_content st sid msg model now).2.chat_sessions s = st.chat_sessions s := by
  cases hcache : st.website_cache sid with
  | none => simp only [chat_with_content, hcache]
  | some d =>
    cases hres : get_ai_response msg d.content ((st.chat_sessions sid).getD []) model with
    | error e => simp only [chat_with_content, hcache, hres]; simp [hs]
    | ok r => simp only [chat_with_content, hcache, hres]; simp [hs]

/-- On a model failure the effective transcripts are untouched. -/
theorem chat_error_transcript (st : ServerState) (sid msg : String)
    (model : String → ModelOutcome) (now : Nat) (e : HttpError)
    (he : (chat_with_content st sid msg model now).1 = Except.error e) (s : String) :
    transcript (chat_with_content st sid msg model now).2 s = transcript st s := by
  cases hcache : st.website_cache sid with
  | none => simp only [chat_with_content, hcache]
  | some d =>
    cases hres : get_ai_response msg d.content ((st.chat_sessions sid).getD []) model with
    | error e2 =>
      simp only [chat_with_content, hcache, hres]
      by_cases hs : s = sid
      · subst hs
        simp [transcript]
      · simp [transcript, hs]
    | ok r =>
      simp only [chat_with_content, hcache, hres] at he
      simp at he

/-- On success, exactly the new exchange is appended to the session. -/
theorem chat_ok_transcript (st : ServerState) (sid msg : String)
    (model : String → ModelOutcome) (now : Nat) (r : ChatResponse)
    (hr : (chat_with_content st sid msg model now).1 = Except.ok r) :
    transcript (chat_with_content st sid msg model now).2 sid
      = transcript st sid ++ [⟨msg, r.ai_response, now⟩] := by
  cases hcache : st.website_cache sid with
  | none => simp only [chat_with_content, hcache] at hr; simp at hr
  | some d =>
    cases hres : get_ai_response msg d.content ((st.chat_sessions sid).getD []) model with
    | error e2 => simp only [chat_with_content, hcache, hres] at hr; simp at hr
    | ok resp =>
      simp only [chat_with_content, hcache, hres] at hr ⊢
      simp only [Except.ok.injEq] at hr
      rw [← hr]
      simp [transcript]

theorem extract_other_sessions (st : ServerState) (url title content : String) (now : Nat)
    (s : String) (hs : generate_session_id url now ≠ s) :
    (extract_website st url title content now).2.website_cache s = st.website_cache s ∧
    (extract_website st url title content now).2.chat_sessions s = st.chat_sessions s := by
  constructor <;> simp [extract_website, if_neg (Ne.symm hs)]

/-! ### Claims C1, C2, C8, C9: session store behaviour -/

/-- Claim C2: a chat request with an unknown session id fails with the 404
session error and leaves the state exactly as it was; with a stored session
id the request proceeds past the check, any later failure carrying a model
status (408 or 500), never the 404 of the session check. -/
theorem chat_unknown_session (st : ServerState) (sid msg : String)
    (model : String → ModelOutcome) (now : Nat) :
    (st.website_cache sid = none →
      chat_with_content st sid msg model now
        = (Except.error ⟨404, "Session not found. Please extract website content first."⟩,
           st)) ∧
    (∀ d, st.website_cache sid = some d →
      ∀ e, (chat_with_content st sid msg model now).1 = Except.error e →
        e.status_code ≠ 404) := by
  constructor
  · intro h
    simp only [chat_with_content, h]
  · intro d hd e he
    cases hres : get_ai_response msg d.content ((st.chat_sessions sid).getD []) model with
    | error e2 =>
      simp only [chat_with_content, hd, hres] at he
      simp only [Except.error.injEq] at he
      rw [← he]
      rcases get_ai_response_error_status msg d.content ((st.chat_sessions sid).getD [])
        model e2 hres with h | h <;> omega
    | ok r =>
      simp only [chat_with_content, hd, hres] at he
      simp at he

/-- Claim C8: the append is atomic — a failed model invocation (timeout or
other error) leaves every session transcript exactly as before the request,
and an exchange is stored only when a complete AI response was obtained, in
which case exactly one exchange is appended at the end. -/
theorem chat_append_atomic (st : ServerState) (sid msg : String)
    (model : String → ModelOutcome) (now : Nat) :
    (∀ e, (chat_with_content st sid msg model now).1 = Except.error e →
      ∀ s, transcript (chat_with_content st sid msg model now).2 s = transcript st s) ∧
    (∀ r, (chat_with_content st sid msg model now).1 = Except.ok r →
      transcript (chat_with_content st sid msg model now).2 sid
        = transcript st sid ++ [⟨msg, r.ai_response, now⟩]) :=
  ⟨fun e he s => chat_error_transcript st sid msg model now e he s,
   fun r hr => chat_ok_transcript st sid msg model now r hr⟩

/-- Claim C1 (amended): a chat call never modifies any stored session
website data and touches no transcript of another session; a successful chat
appends exactly one exchange at the end; an extract-website call leaves
every session other than the one with the generated id untouched (a
colliding id replaces that session wholesale). -/
theorem session_immutability (st : ServerState) (sid msg : String)
    (model : String → ModelOutcome) (now : Nat) :
    ((chat_with_content st sid msg model now).2.website_cache = st.website_cache) ∧
    (∀ s, s ≠ sid →
      (chat_with_content st sid msg model now).2.chat_sessions s = st.chat_sessions s) ∧
    (∀ r, (chat_with_content st sid msg model now).1 = Except.ok r →
      transcript (chat_with_content st sid msg model now).2 sid
        = transcript st sid ++ [⟨msg, r.ai_response, now⟩]) ∧
    (∀ url title content s, generate_session_id url now ≠ s →
      (extract_website st url title content now).2.website_cache s = st.website_cache s ∧
      (extract_website st url title content now).2.chat_sessions s = st.chat_sessions s) :=
  ⟨chat_cache_eq st sid msg model now,
   fun s hs => chat_other_sessions_eq st sid msg model now s hs,
   fun r hr => chat_ok_transcript st sid msg model now r hr,
   fun url title content s hs => extract_other_sessions st url title content now s hs⟩

/-- Claim C1 counterexample: a second extract-website call for the same URL
in the same wall-clock second generates the same session id and replaces
the stored session content ("A" becomes "B") — so a subsequent operation
can modify stored session content, refuting the claim as universally stated. -/
theorem session_immutable_counterexample :
    ((extract_website initialState "http://a/" "T" "A" 7).2.website_cache
        (generate_session_id "http://a/" 7)).map WebsiteData.content = some "A" ∧
    ((extract_website (extract_website initialState "http://a/" "T" "A" 7).2
        "http://a/" "T2" "B" 7).2.website_cache
        (generate_session_id "http://a/" 7)).map WebsiteData.content = some "B" := by
  constructor <;> simp [extract_website]

/-- Claim C9: the session id is a pure function of the URL and the integer
second, 12 characters long; two extracts of the same URL in the same second
produce the identical id, the second overwriting the stored
content and resetting its transcript to empty. -/
theorem session_id_collision (st : ServerState) (url t1 c1 t2 c2 : String) (now : Nat) :
    (generate_session_id url now).length = 12 ∧
    (extract_website st url t1 c1 now).1.session_id
      = (extract_website (extract_website st url t1 c1 now).2 url t2 c2 now).1.session_id ∧
    ((extract_website st url t1 c1 now).2.website_cache (generate_session_id url now)
      = some ⟨url, t1, c1, now⟩) ∧
    ((extract_website (extract_website st url t1 c1 now).2 url t2 c2 now).2.website_cache
        (generate_session_id url now) = some ⟨url, t2, c2, now⟩) ∧
    ((extract_website (extract_website st url t1 c1 now).2 url t2 c2 now).2.chat_sessions
        (generate_session_id url now) = some []) := by
  refine ⟨generate_session_id_length url now, rfl, ?_, ?_, ?_⟩ <;> simp [extract_website]

/-! ### Concrete witness state for C1, C2, C8 -/

def wModel : String → ModelOutcome := fun _ => ModelOutcome.success "hi"

def wTimeoutModel : String → ModelOutcome := fun _ => ModelOutcome.timeout

def wState : ServerState := (extract_website initialState "http://w/" "T" "c" 3).2

def wSid : String := generate_session_id "http://w/" 3

theorem wState_cache : wState.website_cache wSid = some ⟨"http://w/", "T", "c", 3⟩ := by
  simp [wState, wSid, extract_website]

theorem wState_sessions : wState.chat_sessions wSid = some [] := by
  simp [wState, wSid, extract_website]

theorem wTimeout_result :
    (chat_with_content wState wSid "m" wTimeoutModel 0).1
      = Except.error ⟨408, "AI processing timed out. Please try again."⟩ := by
  have hres : get_ai_response "m" (⟨"http://w/", "T", "c", 3⟩ : WebsiteData).content
      ((wState.chat_sessions wSid).getD []) wTimeoutModel
      = Except.error ⟨408, "AI processing timed out. Please try again."⟩ := by
    simp [get_ai_response, wTimeoutModel]
  simp only [chat_with_content, wState_cache, hres]

theorem wOk_result :
    (chat_with_content wState wSid "m" wModel 9).1 = Except.ok ⟨wSid, "m", "hi", 9⟩ := by
  have hres : get_ai_response "m" (⟨"http://w/", "T", "c", 3⟩ : WebsiteData).content
      ((wState.chat_sessions wSid).getD []) wModel = Except.ok "hi" := by
    simp [get_ai_response, wModel]
  simp only [chat_with_content, wState_cache, hres]

theorem x_ne_wSid : ("x" : String) ≠ wSid := by
  intro h
  have h1 : ("x" : String).length = wSid.length := congrArg String.length h
  have h2 : wSid.length = 12 := generate_session_id_length "http://w/" 3
  rw [h2] at h1
  exact absurd h1 (by decide)

theorem gen_ne_y : generate_session_id "http://q/" 5 ≠ "y" := by
  intro h
  have h1 : (generate_session_id "http://q/" 5).length = ("y" : String).length :=
    congrArg String.length h
  rw [generate_session_id_length "http://q/" 5] at h1
  exact absurd h1 (by decide)

/-- Witness for C2 at a concrete store: the 404 branch on an empty store,
and a stored session whose model timeout yields status 408 ≠ 404. -/
theorem chat_unknown_session_witness :
    chat_with_content initialState "nosuch" "m" wModel 0
      = (Except.error ⟨404, "Session not found. Please extract website content first."⟩,
         initialState) ∧
    (⟨408, "AI processing timed out. Please try again."⟩ : HttpError).status_code ≠ 404 :=
  ⟨(chat_unknown_session initialState "nosuch" "m" wModel 0).1 rfl,
   (chat_unknown_session wState wSid "m" wTimeoutModel 0).2
     ⟨"http://w/", "T", "c", 3⟩ wState_cache
     ⟨408, "AI processing timed out. Please try again."⟩ wTimeout_result⟩

/-- Witness for C8 at a concrete store: a timed-out chat leaves the
transcript unchanged, a successful chat appends the one new exchange. -/
theorem chat_append_atomic_witness :
    transcript (chat_with_content wState wSid "m" wTimeoutModel 0).2 wSid
      = transcript wState wSid ∧
    transcript (chat_with_content wState wSid "m" wModel 9).2 wSid
      = transcript wState wSid ++ [⟨"m", "hi", 9⟩] :=
  ⟨(chat_append_atomic wState wSid "m" wTimeoutModel 0).1
     ⟨408, "AI processing timed out. Please try again."⟩ wTimeout_result wSid,
   (chat_append_atomic wState wSid "m" wModel 9).2 ⟨wSid, "m", "hi", 9⟩ wOk_result⟩

/-- Witness for C1 (amended) at a concrete store. -/
theorem session_immutability_witness :
    ((chat_with_content wState wSid "m" wModel 9).2.website_cache = wState.website_cache) ∧
    ((chat_with_content wState wSid "m" wModel 9).2.chat_sessions "x"
      = wState.chat_sessions "x") ∧
    (transcript (chat_with_content wState wSid "m" wModel 9).2 wSid
      = transcript wState wSid ++ [⟨"m", "hi", 9⟩]) ∧
    ((extract_website wState "http://q/" "T2" "c2" 5).2.website_cache "y"
      = wState.website_cache "y") :=
  ⟨(session_immutability wState wSid "m" wModel 9).1,
   (session_immutability wState wSid "m" wModel 9).2.1 "x" x_ne_wSid,
   (session_immutability wState wSid "m" wModel 9).2.2.1 ⟨wSid, "m", "hi", 9⟩ wOk_result,
   ((session_immutability wState wSid "m" wModel 5).2.2.2 "http://q/" "T2" "c2" "y"
     gen_ne_y).1⟩

/-! ### Claim C6: the content preview -/

def c6Content : String := String.mk (List.replicate 501 'a')

theorem c6_len : c6Content.length = 501 := by
  show (List.replicate 501 'a').length = 501
  rw [List.length_replicate]

/-- Claim C6 counterexample: on a 501-character extraction the returned
content preview has 503 characters (first 500 plus `"..."`), exceeding the
claimed 500-character bound. -/
theorem content_preview_counterexample :
    ((extract_website initialState "http://c/" "T" c6Content 0).1.content_preview).length
      = 503 := by
  show (content_preview c6Content).length = 503
  have hgt : c6Content.length > 500 := by rw [c6_len]; norm_num
  have heq : content_preview c6Content = String.mk (c6Content.data.take 500) ++ "..." := by
    rw [content_preview, if_pos hgt]
  rw [heq, String.length_append]
  have hd : c6Content.data.length = 501 := c6_len
  have h1 : (String.mk (c6Content.data.take 500)).length = 500 := by
    show (c6Content.data.take 500).length = 500
    rw [List.length_take, hd]
    omega
  rw [h1]
  rfl

/-- Claim C6 (amended): the returned content preview is the first 500
characters followed by the marker `"..."` (503 characters in total) when
the extracted text exceeds 500 characters, and the whole text (at most 500
characters) otherwise. -/
theorem content_preview_spec (st : ServerState) (url title content : String) (now : Nat) :
    (extract_website st url title content now).1.content_preview
        = content_preview content ∧
    (content.length > 500 →
      content_preview content = String.mk (content.data.take 500) ++ "..." ∧
      (content_preview content).length = 503) ∧
    (content.length ≤ 500 →
      content_preview content = content ∧ (content_preview content).length ≤ 500) := by
  refine ⟨rfl, ?_, ?_⟩
  · intro hgt
    have heq : content_preview content = String.mk (content.data.take 500) ++ "..." := by
      rw [content_preview, if_pos hgt]
    refine ⟨heq, ?_⟩
    rw [heq, String.length_append]
    have h1 : (String.mk (content.data.take 500)).length = 500 := by
      show (content.data.take 500).length = 500
      rw [List.length_take]
      have hlen : content.length = content.data.length := rfl
      omega
    rw [h1]
    rfl
  · intro hle
    have heq : content_preview content = content := by
      rw [content_preview, if_neg (by omega)]
    exact ⟨heq, by rw [heq]; omega⟩

/-- Witness for C6 (amended) at concrete contents of length 501 and 2. -/
theorem content_preview_witness :
    (content_preview c6Content = String.mk (c6Content.data.take 500) ++ "..." ∧
      (content_preview c6Content).length = 503) ∧
    (content_preview "ab" = "ab" ∧ (content_preview "ab").length ≤ 500) :=
  ⟨(content_preview_spec initialState "u" "t" c6Content 0).2.1
     (by rw [c6_len]; norm_num),
   (content_preview_spec initialState "u" "t" "ab" 0).2.2 (by decide)⟩

end WebsiteChat
